import Mathlib

/-!
Verification development for `src/backend/llamacpp.py`, a llama.cpp HTTP
client consisting of four functions: `build_message_content`,
`query_model`, `query_models_parallel` and `query_models_streaming`.

The Python functions are shallowly embedded as total Lean functions.  The
network is abstracted by a `NetOutcome` value describing what the single
HTTP POST of one `query_model` invocation did (which `httpx` exception
class was raised, or which response arrived); given that outcome the rest
of `query_model` is deterministic and is translated statement by
statement.  Python runtime values (the returned dicts, parsed JSON) are
embedded as the inductive type `PyVal`; Python `dict`s are association
lists with unique keys in insertion order, exactly the observable
behaviour of a Python `dict`.

`config.py` (providing `LLAMACPP_HOST` and `DEFAULT_TIMEOUT`) is not part
of the sources; the default timeout is therefore passed as an explicit
parameter, and the host only influences the request URL, which the
`NetOutcome` abstraction subsumes.  The numeric timeout is modelled as a
`Nat`; only its decimal rendering enters the results.
-/

/-- A Python runtime value, as far as this client manipulates them:
`None`, booleans, integers, strings, lists and string-keyed dicts. -/
inductive PyVal where
  | none : PyVal
  | bool (b : Bool) : PyVal
  | int (n : Int) : PyVal
  | str (s : String) : PyVal
  | list (xs : List PyVal) : PyVal
  | dict (kvs : List (String × PyVal)) : PyVal

/-- An image record as documented for `build_message_content`: a dict with
a `content` field (base64 data URI) and a `filename` field. -/
structure ImageRec where
  content : String
  filename : String

/-- Embedding of `build_message_content` (llamacpp.py lines 15-48).
`if not images` is true for `None` and for the empty list; otherwise a
content array is built: one text part, then one `image_url` part per
image in input order, using only `image["content"]`. -/
def build_message_content (text : String) (images : Option (List ImageRec)) : PyVal :=
  match images with
  | Option.none => PyVal.str text
  | some [] => PyVal.str text
  | some imgs =>
      PyVal.list
        (PyVal.dict [("type", PyVal.str "text"), ("text", PyVal.str text)] ::
          imgs.map (fun image =>
            PyVal.dict [("type", PyVal.str "image_url"),
              ("image_url", PyVal.dict [("url", PyVal.str image.content)])]))

/-- Outcome of the one HTTP POST performed inside `query_model`, at the
transport level: which `httpx` exception class the awaited call raised, or
the response that arrived.  A `response` carries its status code, its body
text, and the result of `response.json()` (`Except.error` when the body is
not valid JSON, carrying the stringified parse exception). -/
inductive NetOutcome where
  | connectError (msg : String) : NetOutcome
  | timeoutExc (msg : String) : NetOutcome
  | otherExc (msg : String) : NetOutcome
  | response (status : Nat) (text : String) (json : Except String PyVal) : NetOutcome

/-- Python subscription `v[k]`: raises `KeyError` (whose `str` is the
quoted key) on a dict without the key, `TypeError` on a non-dict. -/
def pyGetItem (v : PyVal) (k : String) : Except String PyVal :=
  match v with
  | PyVal.dict kvs =>
      match kvs.find? (fun kv => kv.1 == k) with
      | some kv => Except.ok kv.2
      | Option.none => Except.error ("\x27" ++ k ++ "\x27")
  | _ => Except.error "object is not subscriptable"

/-- Python subscription `v[i]` on a list: `IndexError` when out of range,
`TypeError` on a non-list. -/
def pyIndexItem (v : PyVal) (i : Nat) : Except String PyVal :=
  match v with
  | PyVal.list xs =>
      match xs.get? i with
      | some x => Except.ok x
      | Option.none => Except.error "list index out of range"
  | _ => Except.error "object is not subscriptable"

/-- Python `v.get(k)` on a dict: the value, or `None` when the key is
absent; `AttributeError` when `v` is not a dict. -/
def pyGetMethod (v : PyVal) (k : String) : Except String PyVal :=
  match v with
  | PyVal.dict kvs =>
      match kvs.find? (fun kv => kv.1 == k) with
      | some kv => Except.ok kv.2
      | Option.none => Except.ok PyVal.none
  | _ => Except.error "object has no attribute get"

/-- The success-path extraction of `query_model` (lines 94-98):
`message = data['choices'][0]['message']`, then `message.get('content')`
and `message.get('reasoning_details')`.  Any raised exception is returned
as `Except.error` with the stringified exception. -/
def extractMessage (data : PyVal) : Except String (PyVal × PyVal) := do
  let choices ← pyGetItem data "choices"
  let choice0 ← pyIndexItem choices 0
  let message ← pyGetItem choice0 "message"
  let content ← pyGetMethod message "content"
  let reasoning ← pyGetMethod message "reasoning_details"
  return (content, reasoning)

/-- The failure dict built by each `except` clause of `query_model`:
`{'error': True, 'error_type': etype, 'error_message': msg}`. -/
def failureDict (etype msg : String) : PyVal :=
  PyVal.dict [("error", PyVal.bool true), ("error_type", PyVal.str etype),
    ("error_message", PyVal.str msg)]

/-- The f-string of the `HTTPStatusError` clause (line 113):
`f'HTTP {e.response.status_code}: {e.response.text[:200]}'`. -/
def httpErrorMessage (status : Nat) (text : String) : String :=
  let body := text.take 200
  s!"HTTP {status}: {body}"

/-- The f-string of the `TimeoutException` clause (line 120):
`f'Request timed out after {timeout}s'`. -/
def timeoutMessage (t : Nat) : String :=
  s!"Request timed out after {t}s"

/-- Embedding of `query_model` (llamacpp.py lines 51-128).  `timeout` is
the optional argument (`None` replaced by `DEFAULT_TIMEOUT`, here the
parameter `defaultTimeout`, since `config.py` is not in the sources);
`stage` only affects logging.  `outcome` abstracts the awaited POST.
`response.raise_for_status()` raises `httpx.HTTPStatusError` exactly for
non-2xx status codes; the `except` clauses are translated in order, the
exception classes being disjoint. -/
def query_model (model : String) (messages : PyVal) (timeout : Option Nat)
    (stage : Option String) (defaultTimeout : Nat) (outcome : NetOutcome) : PyVal :=
  let t := timeout.getD defaultTimeout
  match outcome with
  | NetOutcome.connectError _ =>
      failureDict "connection" "Cannot connect to llama.cpp server"
  | NetOutcome.timeoutExc _ =>
      failureDict "timeout" (timeoutMessage t)
  | NetOutcome.otherExc msg =>
      failureDict "unknown" msg
  | NetOutcome.response status text json =>
      if 200 ≤ status ∧ status < 300 then
        match json with
        | Except.error msg => failureDict "unknown" msg
        | Except.ok data =>
            match extractMessage data with
            | Except.ok cr =>
                PyVal.dict [("content", cr.1), ("reasoning_details", cr.2)]
            | Except.error msg => failureDict "unknown" msg
      else
        failureDict "http" (httpErrorMessage status text)

/-- Insertion into a Python dict under comprehension semantics: an
existing key keeps its position and gets the new value, a new key is
appended. -/
def pyDictInsert (d : List (String × PyVal)) (k : String) (v : PyVal) :
    List (String × PyVal) :=
  if d.any (fun kv => kv.1 == k) then
    d.map (fun kv => if kv.1 == k then (k, v) else kv)
  else
    d ++ [(k, v)]

/-- The dict comprehension `{model: response for model, response in zip(models, responses)}`. -/
def pyDictOfPairs (pairs : List (String × PyVal)) : List (String × PyVal) :=
  pairs.foldl (fun d kv => pyDictInsert d kv.1 kv.2) []

/-- The tasks list of `query_models_parallel` (line 153): one
`query_model(model, messages, stage=stage)` invocation per list element,
in order.  `net i` is the network outcome of the request issued by the
i-th task. -/
def parallel_responses (models : List String) (messages : PyVal)
    (stage : Option String) (defaultTimeout : Nat) (net : Nat → NetOutcome) : List PyVal :=
  models.enum.map (fun p =>
    query_model p.2 messages Option.none stage defaultTimeout (net p.1))

/-- Embedding of `query_models_parallel` (llamacpp.py lines 131-159):
gather all tasks, then build `{model: response ...}` over
`zip(models, responses)`. -/
def query_models_parallel (models : List String) (messages : PyVal)
    (stage : Option String) (defaultTimeout : Nat) (net : Nat → NetOutcome) :
    List (String × PyVal) :=
  pyDictOfPairs (models.zip (parallel_responses models messages stage defaultTimeout net))

/-- The tasks of `query_models_streaming` (lines 183-192): task i runs
`query_with_name(models[i])`, producing `(models[i], response_i)`. -/
def streaming_tasks (models : List String) (messages : PyVal)
    (defaultTimeout : Nat) (net : Nat → NetOutcome) : List (String × PyVal) :=
  models.enum.map (fun p =>
    (p.2, query_model p.2 messages Option.none Option.none defaultTimeout (net p.1)))

/-- The order in which `asyncio.as_completed(tasks)` hands back the
tasks: task indices sorted by their completion time `finish`. -/
def asCompletedOrder (n : Nat) (finish : Nat → Nat) : List Nat :=
  (List.range n).mergeSort (fun i j => decide (finish i ≤ finish j))

/-- Embedding of `query_models_streaming` (llamacpp.py lines 162-200): the
full sequence of `(model, response)` pairs the async generator yields,
task i finishing at time `finish i`; `asyncio.as_completed` yields
first-finished-first. -/
def query_models_streaming (models : List String) (messages : PyVal)
    (defaultTimeout : Nat) (net : Nat → NetOutcome) (finish : Nat → Nat) :
    List (String × PyVal) :=
  let tasks := streaming_tasks models messages defaultTimeout net
  (asCompletedOrder models.length finish).map
    (fun i => tasks.getD i ("", PyVal.none))

/-- One observable event in the execution of the `query_models_streaming`
generator body: creation of task i (the `asyncio.create_task` call of
line 192, which dispatches the request for that model), or the yielding
of one `(model, response)` item (line 200). -/
inductive StreamEvent where
  | createTask (i : Nat) (model : String) : StreamEvent
  | yieldItem (model : String) (response : PyVal) : StreamEvent

/-- Is the event a task creation (a request dispatch)? -/
def StreamEvent.isCreate : StreamEvent → Bool
  | StreamEvent.createTask _ _ => true
  | StreamEvent.yieldItem _ _ => false

/-- The events the `query_models_streaming` generator has performed after
the consumer has pulled `pulls` items.  Python semantics of (async)
generators: calling the generator function runs none of the body; the
first pull runs the body up to the first `yield`, so line 192 creates all
tasks during the first pull; pull k ends at the k-th `yield`.  After
`pulls = 0` pulls no event has happened; after `pulls ≥ 1` pulls all
`len(models)` tasks have been created and the first `min pulls
len(models)` items have been yielded. -/
def streamingEvents (models : List String) (messages : PyVal)
    (defaultTimeout : Nat) (net : Nat → NetOutcome) (finish : Nat → Nat)
    (pulls : Nat) : List StreamEvent :=
  if pulls = 0 then []
  else
    let tasks := streaming_tasks models messages defaultTimeout net
    (models.enum.map (fun p => StreamEvent.createTask p.1 p.2)) ++
      ((asCompletedOrder models.length finish).take (min pulls models.length)).map
        (fun i =>
          let item := tasks.getD i ("", PyVal.none)
          StreamEvent.yieldItem item.1 item.2)

/-! Property-level predicates used to state the claims. -/

/-- Does the value have exactly the shape of a success result of
`query_model`: a dict with keys `content` and `reasoning_details`? -/
def isSuccessShape : PyVal → Bool
  | PyVal.dict [("content", _), ("reasoning_details", _)] => true
  | _ => false

/-- Does the value have exactly the shape of a failure result of
`query_model`: a dict `{'error': True, 'error_type': t, 'error_message': m}`
with `t` one of the four taxonomy kinds? -/
def isFailureShape : PyVal → Bool
  | PyVal.dict [("error", PyVal.bool true), ("error_type", PyVal.str t),
      ("error_message", PyVal.str _)] =>
      t == "connection" || t == "http" || t == "timeout" || t == "unknown"
  | _ => false

/-- Does the dict value carry the key `k`? -/
def dictHasKey : PyVal → String → Bool
  | PyVal.dict kvs, k => kvs.any (fun kv => kv.1 == k)
  | _, _ => false

/-- Lookup in an association-list dict: the value at the first (hence, for
a well-formed Python dict, the only) occurrence of the key. -/
def pyLookup (d : List (String × PyVal)) (k : String) : Option PyVal :=
  (d.find? (fun kv => kv.1 == k)).map (fun kv => kv.2)

/-- The value attached to the LAST occurrence of a key in a raw pair
list — the value a Python dict comprehension keeps for that key. -/
def lastAssoc (pairs : List (String × PyVal)) (k : String) : Option PyVal :=
  (pairs.reverse.find? (fun kv => kv.1 == k)).map (fun kv => kv.2)

/-- The number of request-dispatch events in a trace. -/
def countCreates (events : List StreamEvent) : Nat :=
  (events.filter StreamEvent.isCreate).length

/-- A concrete network behaviour: every request raises a generic
exception.  Used for concrete evaluations. -/
def netConst : Nat → NetOutcome := fun _ => NetOutcome.otherExc "boom"

/-- A concrete completion-time assignment: task i finishes at time i. -/
def finishId : Nat → Nat := fun i => i

/-! Helper lemmas. -/

/-- `toString` on a `String` is the identity. -/
theorem toString_string (s : String) : toString s = s := rfl

/-- Case analysis for `query_model`: the returned value is literally the
success dict or one of the four taxonomy failure dicts. -/
theorem query_model_shape (model : String) (messages : PyVal) (timeout : Option Nat)
    (stage : Option String) (defaultTimeout : Nat) (outcome : NetOutcome) :
    (∃ c r, query_model model messages timeout stage defaultTimeout outcome
        = PyVal.dict [("content", c), ("reasoning_details", r)]) ∨
    (∃ t m, (t = "connection" ∨ t = "http" ∨ t = "timeout" ∨ t = "unknown") ∧
      query_model model messages timeout stage defaultTimeout outcome = failureDict t m) := by
  cases outcome with
  | connectError e => exact Or.inr ⟨"connection", _, Or.inl rfl, rfl⟩
  | timeoutExc e => exact Or.inr ⟨"timeout", _, by tauto, rfl⟩
  | otherExc e => exact Or.inr ⟨"unknown", e, by tauto, rfl⟩
  | response status text json =>
      by_cases h : 200 ≤ status ∧ status < 300
      · cases json with
        | error m =>
            exact Or.inr ⟨"unknown", m, by tauto, by simp [query_model, h]⟩
        | ok data =>
            cases hx : extractMessage data with
            | ok cr =>
                exact Or.inl ⟨cr.1, cr.2, by simp [query_model, h, hx]⟩
            | error m =>
                exact Or.inr ⟨"unknown", m, by tauto, by simp [query_model, h, hx]⟩
      · exact Or.inr ⟨"http", httpErrorMessage status text, by tauto,
          by simp [query_model, h]⟩

/-- C1: every invocation of the Single-Query Executor converts every
failure into a `Failure` value and always returns exactly one result
of the `Success` or `Failure` shape, never anything else; in the
embedding `query_model` is a total function into `PyVal`, and its value
always satisfies exactly one of the two shape predicates. -/
theorem spec_C1 (model : String) (messages : PyVal) (timeout : Option Nat)
    (stage : Option String) (defaultTimeout : Nat) (outcome : NetOutcome) :
    (isSuccessShape (query_model model messages timeout stage defaultTimeout outcome) = true
      ∧ isFailureShape (query_model model messages timeout stage defaultTimeout outcome) = false) ∨
    (isFailureShape (query_model model messages timeout stage defaultTimeout outcome) = true
      ∧ isSuccessShape (query_model model messages timeout stage defaultTimeout outcome) = false) := by
  rcases query_model_shape model messages timeout stage defaultTimeout outcome with
    ⟨c, r, hq⟩ | ⟨t, m, ht, hq⟩
  · exact Or.inl ⟨by rw [hq]; rfl, by rw [hq]; rfl⟩
  · refine Or.inr ⟨?_, ?_⟩ <;> rw [hq] <;> rcases ht with rfl | rfl | rfl | rfl <;> rfl

/-- C9: `query_model` never returns `None` (despite the `Optional`
annotation and the docstring), every failure dict carries the key
`error` set to `True`, no success dict carries an `error` key, and the
presence of the `error` key discriminates the two shapes. -/
theorem spec_C9 (model : String) (messages : PyVal) (timeout : Option Nat)
    (stage : Option String) (defaultTimeout : Nat) (outcome : NetOutcome) :
    query_model model messages timeout stage defaultTimeout outcome ≠ PyVal.none
    ∧ (dictHasKey (query_model model messages timeout stage defaultTimeout outcome) "error" = true
        ↔ isFailureShape (query_model model messages timeout stage defaultTimeout outcome) = true)
    ∧ (dictHasKey (query_model model messages timeout stage defaultTimeout outcome) "error" = false
        ↔ isSuccessShape (query_model model messages timeout stage defaultTimeout outcome) = true)
    ∧ (isFailureShape (query_model model messages timeout stage defaultTimeout outcome) = true →
        pyGetItem (query_model model messages timeout stage defaultTimeout outcome) "error"
          = Except.ok (PyVal.bool true)) := by
  rcases query_model_shape model messages timeout stage defaultTimeout outcome with
    ⟨c, r, hq⟩ | ⟨t, m, ht, hq⟩ <;> rw [hq]
  · refine ⟨fun h => PyVal.noConfusion h, ?_, ?_, ?_⟩
    · constructor
      · intro h; exact absurd h (by simp [dictHasKey])
      · intro h; exact absurd h (by simp [isFailureShape])
    · simp [dictHasKey, isSuccessShape]
    · intro h; exact absurd h (by simp [isFailureShape])
  · rcases ht with rfl | rfl | rfl | rfl <;>
      refine ⟨fun h => PyVal.noConfusion h, ?_, ?_, fun _ => rfl⟩ <;>
      simp [dictHasKey, isFailureShape, isSuccessShape, failureDict]

/-- C2: the four-kind failure taxonomy of `query_model`: connection
refusal, HTTP error status (message `HTTP {status}: ` plus the first 200
characters of the body), timeout (message naming the effective timeout),
and any other exception (stringified). -/
theorem spec_C2 (model : String) (messages : PyVal) (timeout : Option Nat)
    (stage : Option String) (defaultTimeout : Nat) (emsg : String) (status : Nat)
    (text : String) (json : Except String PyVal)
    (hstat : ¬ (200 ≤ status ∧ status < 300)) :
    query_model model messages timeout stage defaultTimeout (NetOutcome.connectError emsg)
      = failureDict "connection" "Cannot connect to llama.cpp server"
    ∧ query_model model messages timeout stage defaultTimeout (NetOutcome.response status text json)
      = failureDict "http" (httpErrorMessage status text)
    ∧ httpErrorMessage status text = "HTTP " ++ toString status ++ ": " ++ text.take 200
    ∧ query_model model messages timeout stage defaultTimeout (NetOutcome.timeoutExc emsg)
      = failureDict "timeout" (timeoutMessage (timeout.getD defaultTimeout))
    ∧ timeoutMessage (timeout.getD defaultTimeout)
      = "Request timed out after " ++ toString (timeout.getD defaultTimeout) ++ "s"
    ∧ query_model model messages timeout stage defaultTimeout (NetOutcome.otherExc emsg)
      = failureDict "unknown" emsg := by
  refine ⟨rfl, by simp [query_model, hstat], ?_, rfl, ?_, rfl⟩
  · simp [httpErrorMessage, toString_string, String.append_assoc, String.append_empty]
  · simp [timeoutMessage, toString_string, String.append_assoc, String.append_empty]

/-- Witness for C2 at concrete inputs. -/
theorem spec_C2_witness :
    query_model "m" (PyVal.str "hi") Option.none Option.none 120 (NetOutcome.connectError "boom")
      = failureDict "connection" "Cannot connect to llama.cpp server"
    ∧ query_model "m" (PyVal.str "hi") Option.none Option.none 120
        (NetOutcome.response 500 "oops" (Except.error "x"))
      = failureDict "http" (httpErrorMessage 500 "oops")
    ∧ httpErrorMessage 500 "oops" = "HTTP " ++ toString 500 ++ ": " ++ String.take "oops" 200
    ∧ query_model "m" (PyVal.str "hi") Option.none Option.none 120 (NetOutcome.timeoutExc "boom")
      = failureDict "timeout" (timeoutMessage 120)
    ∧ timeoutMessage 120 = "Request timed out after " ++ toString 120 ++ "s"
    ∧ query_model "m" (PyVal.str "hi") Option.none Option.none 120 (NetOutcome.otherExc "boom")
      = failureDict "unknown" "boom" :=
  spec_C2 "m" (PyVal.str "hi") Option.none Option.none 120 "boom" 500 "oops"
    (Except.error "x") (by decide)

/-- C6: on a 2xx response whose body parses as JSON, `query_model`
returns the success dict holding `choices[0].message.content` and
`choices[0].message.reasoning_details` (either may be absent, i.e.
`None`); when the expected shape is missing required fields (no
`choices` key, empty `choices` array, or no `message` object) the result
is a failure of type `unknown`, not a crash. -/
theorem spec_C6 (model : String) (messages : PyVal) (timeout : Option Nat)
    (stage : Option String) (defaultTimeout : Nat) (status : Nat) (text : String)
    (data : PyVal) (h2xx : 200 ≤ status ∧ status < 300) :
    (∀ c r, extractMessage data = Except.ok (c, r) →
        query_model model messages timeout stage defaultTimeout
          (NetOutcome.response status text (Except.ok data))
          = PyVal.dict [("content", c), ("reasoning_details", r)])
    ∧ (∀ e, extractMessage data = Except.error e →
        query_model model messages timeout stage defaultTimeout
          (NetOutcome.response status text (Except.ok data))
          = failureDict "unknown" e)
    ∧ pyGetItem (query_model model messages timeout stage defaultTimeout
          (NetOutcome.response status text (Except.ok (PyVal.dict [])))) "error_type"
        = Except.ok (PyVal.str "unknown")
    ∧ pyGetItem (query_model model messages timeout stage defaultTimeout
          (NetOutcome.response status text
            (Except.ok (PyVal.dict [("choices", PyVal.list [])])))) "error_type"
        = Except.ok (PyVal.str "unknown")
    ∧ pyGetItem (query_model model messages timeout stage defaultTimeout
          (NetOutcome.response status text
            (Except.ok (PyVal.dict [("choices", PyVal.list [PyVal.dict []])])))) "error_type"
        = Except.ok (PyVal.str "unknown") := by
  refine ⟨?_, ?_, ?_, ?_, ?_⟩
  · intro c r hx; simp [query_model, h2xx, hx]
  · intro e hx; simp [query_model, h2xx, hx]
  · simp only [query_model, h2xx, and_self, if_true]; rfl
  · simp only [query_model, h2xx, and_self, if_true]; rfl
  · simp only [query_model, h2xx, and_self, if_true]; rfl

/-- Witness for C6: a well-shaped 2xx response yields the success dict. -/
theorem spec_C6_witness :
    query_model "m" (PyVal.str "hi") Option.none Option.none 120
        (NetOutcome.response 200 "body" (Except.ok (PyVal.dict [("choices",
          PyVal.list [PyVal.dict [("message",
            PyVal.dict [("content", PyVal.str "hello")])]])])))
      = PyVal.dict [("content", PyVal.str "hello"), ("reasoning_details", PyVal.none)] :=
  (spec_C6 "m" (PyVal.str "hi") Option.none Option.none 120 200 "body"
      (PyVal.dict [("choices", PyVal.list [PyVal.dict [("message",
        PyVal.dict [("content", PyVal.str "hello")])]])])
      (by decide)).1 (PyVal.str "hello") PyVal.none rfl

/-- C7: `build_message_content` returns the plain string `text` when
`images` is absent or empty; otherwise the ordered sequence whose first
element is the text part followed by exactly one `image_url` part per
image in input order; the `filename` field is not embedded in the output
(the output only depends on the `content` fields). -/
theorem spec_C7 (text : String) (imgs : List ImageRec) (h : imgs ≠ []) :
    build_message_content text Option.none = PyVal.str text
    ∧ build_message_content text (some []) = PyVal.str text
    ∧ build_message_content text (some imgs) =
        PyVal.list (PyVal.dict [("type", PyVal.str "text"), ("text", PyVal.str text)] ::
          imgs.map (fun image => PyVal.dict [("type", PyVal.str "image_url"),
            ("image_url", PyVal.dict [("url", PyVal.str image.content)])]))
    ∧ (∀ imgs2 : List ImageRec, imgs2.map ImageRec.content = imgs.map ImageRec.content →
        build_message_content text (some imgs2) = build_message_content text (some imgs)) := by
  have key : ∀ js : List ImageRec,
      js.map (fun image => PyVal.dict [("type", PyVal.str "image_url"),
        ("image_url", PyVal.dict [("url", PyVal.str image.content)])])
      = (js.map ImageRec.content).map (fun s => PyVal.dict [("type", PyVal.str "image_url"),
        ("image_url", PyVal.dict [("url", PyVal.str s)])]) := by
    intro js; rw [List.map_map]; rfl
  refine ⟨rfl, rfl, ?_, ?_⟩
  · cases imgs with
    | nil => exact absurd rfl h
    | cons a l => rfl
  · intro imgs2 hc
    cases imgs with
    | nil => exact absurd rfl h
    | cons a l =>
        cases imgs2 with
        | nil => exact absurd hc (by simp)
        | cons b m =>
            show PyVal.list _ = PyVal.list _
            rw [key (b :: m), key (a :: l), hc]

/-- Witness for C7 at a one-image input. -/
theorem spec_C7_witness :
    build_message_content "t" (some [ImageRec.mk "u" "f"]) =
      PyVal.list [PyVal.dict [("type", PyVal.str "text"), ("text", PyVal.str "t")],
        PyVal.dict [("type", PyVal.str "image_url"),
          ("image_url", PyVal.dict [("url", PyVal.str "u")])]] :=
  (spec_C7 "t" [ImageRec.mk "u" "f"] (by simp)).2.2.1

/-- C8: `build_message_content` is a pure total function: it is a Lean
function, so it returns a value for every input without raising, equal
inputs give equal output, and the output is always one of the two
documented forms. -/
theorem spec_C8 (text : String) (images : Option (List ImageRec)) :
    build_message_content text images = build_message_content text images
    ∧ (build_message_content text images = PyVal.str text ∨
        ∃ parts, build_message_content text images = PyVal.list parts) := by
  refine ⟨rfl, ?_⟩
  match images with
  | Option.none => exact Or.inl rfl
  | some [] => exact Or.inl rfl
  | some (a :: l) => exact Or.inr ⟨_, rfl⟩

/-- `any` over a pair list finds a key iff the key is among the mapped
first components. -/
theorem any_key_iff (d : List (String × PyVal)) (k : String) :
    d.any (fun kv => kv.1 == k) = true ↔ k ∈ d.map Prod.fst := by
  rw [List.any_eq_true]
  constructor
  · rintro ⟨kv, hm, he⟩
    exact List.mem_map.mpr ⟨kv, hm, beq_iff_eq.mp he⟩
  · intro h
    rcases List.mem_map.mp h with ⟨kv, hm, he⟩
    exact ⟨kv, hm, beq_iff_eq.mpr he⟩

/-- `pyDictInsert` on an existing key replaces in place. -/
theorem pyDictInsert_of_mem {d : List (String × PyVal)} {k : String} (v : PyVal)
    (h : k ∈ d.map Prod.fst) :
    pyDictInsert d k v = d.map (fun kv => if kv.1 == k then (k, v) else kv) := by
  unfold pyDictInsert
  rw [if_pos ((any_key_iff d k).mpr h)]

/-- `pyDictInsert` on a fresh key appends. -/
theorem pyDictInsert_of_not_mem {d : List (String × PyVal)} {k : String} (v : PyVal)
    (h : ¬ k ∈ d.map Prod.fst) :
    pyDictInsert d k v = d ++ [(k, v)] := by
  unfold pyDictInsert
  rw [if_neg (fun hc => h ((any_key_iff d k).mp hc))]

/-- The keys after a `pyDictInsert`. -/
theorem pyDictInsert_map_fst (d : List (String × PyVal)) (k : String) (v : PyVal) :
    (pyDictInsert d k v).map Prod.fst
      = if k ∈ d.map Prod.fst then d.map Prod.fst else d.map Prod.fst ++ [k] := by
  by_cases h : k ∈ d.map Prod.fst
  · rw [if_pos h, pyDictInsert_of_mem v h, List.map_map]
    apply List.map_congr_left
    intro kv _
    by_cases hb : kv.1 = k
    · simp [hb]
    · simp [hb]
  · rw [if_neg h, pyDictInsert_of_not_mem v h, List.map_append]
    rfl

/-- Unfolding `pyLookup` over a cons cell. -/
theorem pyLookup_cons (x : String × PyVal) (l : List (String × PyVal)) (k : String) :
    pyLookup (x :: l) k = if x.1 = k then some x.2 else pyLookup l k := by
  by_cases h : x.1 = k
  · rw [if_pos h]
    unfold pyLookup
    rw [List.find?_cons_of_pos (p := fun kv : String × PyVal => kv.1 == k) _ (beq_iff_eq.mpr h)]
    rfl
  · rw [if_neg h]
    unfold pyLookup
    rw [List.find?_cons_of_neg (p := fun kv : String × PyVal => kv.1 == k) _
      (fun hc => h (beq_iff_eq.mp hc))]

/-- Unfolding `lastAssoc` over a cons cell: the last occurrence in the
tail wins over the head. -/
theorem lastAssoc_cons (x : String × PyVal) (pairs : List (String × PyVal)) (k : String) :
    lastAssoc (x :: pairs) k
      = (lastAssoc pairs k).or (if x.1 = k then some x.2 else none) := by
  unfold lastAssoc
  rw [List.reverse_cons, List.find?_append]
  by_cases h : x.1 = k
  · rw [if_pos h, List.find?_cons_of_pos (p := fun kv : String × PyVal => kv.1 == k) _ (beq_iff_eq.mpr h)]
    cases pairs.reverse.find? (fun kv => kv.1 == k) <;> rfl
  · rw [if_neg h, List.find?_cons_of_neg (p := fun kv : String × PyVal => kv.1 == k) _
      (fun hc => h (beq_iff_eq.mp hc))]
    cases pairs.reverse.find? (fun kv => kv.1 == k) <;> rfl

/-- Replacing the entries of one key does not change lookups of other
keys. -/
theorem pyLookup_map_replace {k0 k : String} (v0 : PyVal) (d : List (String × PyVal))
    (h : k0 ≠ k) :
    pyLookup (d.map (fun kv => if kv.1 == k0 then (k0, v0) else kv)) k = pyLookup d k := by
  induction d with
  | nil => rfl
  | cons a t ih =>
      rw [List.map_cons, pyLookup_cons, pyLookup_cons]
      by_cases hb : a.1 = k0
      · rw [if_pos (beq_iff_eq.mpr hb)]
        rw [if_neg (show ¬ ((k0, v0).1 = k) from h)]
        rw [if_neg (show ¬ (a.1 = k) from by rw [hb]; exact h)]
        exact ih
      · rw [if_neg (fun hc : (a.1 == k0) = true => hb (beq_iff_eq.mp hc))]
        by_cases hak : a.1 = k
        · rw [if_pos hak, if_pos hak]
        · rw [if_neg hak, if_neg hak]
          exact ih

/-- After replacing the entries of a present key, its lookup gives the
new value. -/
theorem pyLookup_replace_self (d : List (String × PyVal)) (k0 : String) (v0 : PyVal)
    (h : k0 ∈ d.map Prod.fst) :
    pyLookup (d.map (fun kv => if kv.1 == k0 then (k0, v0) else kv)) k0 = some v0 := by
  induction d with
  | nil => simp at h
  | cons a t ih =>
      rw [List.map_cons, pyLookup_cons]
      by_cases hb : a.1 = k0
      · rw [if_pos (beq_iff_eq.mpr hb)]
        rw [if_pos (show (k0, v0).1 = k0 from rfl)]
      · rw [if_neg (fun hc : (a.1 == k0) = true => hb (beq_iff_eq.mp hc))]
        rw [if_neg hb]
        have hmem : k0 ∈ t.map Prod.fst := by
          rcases List.mem_map.mp h with ⟨x, hx, he⟩
          rcases List.mem_cons.mp hx with rfl | hx2
          · exact absurd he hb
          · exact List.mem_map.mpr ⟨x, hx2, he⟩
        exact ih hmem

/-- Lookup after a `pyDictInsert`: the inserted key maps to the new
value, every other key is untouched. -/
theorem pyLookup_pyDictInsert (d : List (String × PyVal)) (k0 : String) (v0 : PyVal)
    (k : String) :
    pyLookup (pyDictInsert d k0 v0) k = if k0 = k then some v0 else pyLookup d k := by
  by_cases h : k0 ∈ d.map Prod.fst
  · rw [pyDictInsert_of_mem v0 h]
    by_cases hk : k0 = k
    · subst hk
      rw [if_pos rfl]
      exact pyLookup_replace_self d k0 v0 h
    · rw [if_neg hk]
      exact pyLookup_map_replace v0 d hk
  · rw [pyDictInsert_of_not_mem v0 h]
    by_cases hk : k0 = k
    · subst hk
      have hnone : d.find? (fun kv => kv.1 == k0) = none := by
        rw [List.find?_eq_none]
        intro x hx hc
        exact h (List.mem_map.mpr ⟨x, hx, beq_iff_eq.mp hc⟩)
      unfold pyLookup
      rw [List.find?_append, hnone, Option.none_or,
        List.find?_cons_of_pos (p := fun kv : String × PyVal => kv.1 == k0) _
          (show ((k0, v0).1 == k0) = true from beq_iff_eq.mpr rfl)]
      rw [if_pos rfl]
      rfl
    · have hone : List.find? (fun kv => kv.1 == k) [(k0, v0)] = none := by
        rw [List.find?_eq_none]
        intro x hx hc
        rw [List.mem_singleton] at hx
        subst hx
        exact hk (beq_iff_eq.mp hc)
      unfold pyLookup
      rw [List.find?_append, hone, Option.or_none, if_neg hk]

/-- Lookup through the dict-comprehension fold is the last-occurrence
association of the raw pair list, falling back to the accumulator. -/
theorem pyDictOfPairs_go_lookup (pairs : List (String × PyVal)) :
    ∀ (d : List (String × PyVal)) (k : String),
      pyLookup (pairs.foldl (fun d kv => pyDictInsert d kv.1 kv.2) d) k
        = (lastAssoc pairs k).or (pyLookup d k) := by
  induction pairs with
  | nil =>
      intro d k
      rfl
  | cons a t ih =>
      intro d k
      rw [List.foldl_cons, ih, lastAssoc_cons, Option.or_assoc, pyLookup_pyDictInsert]
      congr 1
      by_cases hak : a.1 = k
      · rw [if_pos hak, if_pos hak]
        rfl
      · rw [if_neg hak, if_neg hak, Option.none_or]

/-- Lookup in the Python dict built by the comprehension: the value of
the LAST occurrence of the key wins. -/
theorem pyLookup_pyDictOfPairs (pairs : List (String × PyVal)) (k : String) :
    pyLookup (pyDictOfPairs pairs) k = lastAssoc pairs k := by
  rw [pyDictOfPairs, pyDictOfPairs_go_lookup]
  exact Option.or_none

/-- The dict built by the comprehension has pairwise-distinct keys. -/
theorem pyDictOfPairs_go_nodup (pairs : List (String × PyVal)) :
    ∀ d : List (String × PyVal), (d.map Prod.fst).Nodup →
      (((pairs.foldl (fun d kv => pyDictInsert d kv.1 kv.2) d)).map Prod.fst).Nodup := by
  induction pairs with
  | nil => intro d h; exact h
  | cons a t ih =>
      intro d h
      rw [List.foldl_cons]
      apply ih
      rw [pyDictInsert_map_fst]
      by_cases hm : a.1 ∈ d.map Prod.fst
      · rw [if_pos hm]; exact h
      · rw [if_neg hm]
        simp [List.nodup_append, h, hm]

/-- The key set of the comprehension dict is the key set of the raw
pairs joined with the accumulator's. -/
theorem pyDictOfPairs_go_toFinset (pairs : List (String × PyVal)) :
    ∀ d : List (String × PyVal),
      (((pairs.foldl (fun d kv => pyDictInsert d kv.1 kv.2) d)).map Prod.fst).toFinset
        = (d.map Prod.fst).toFinset ∪ (pairs.map Prod.fst).toFinset := by
  induction pairs with
  | nil => intro d; simp
  | cons a t ih =>
      intro d
      rw [List.foldl_cons, ih, pyDictInsert_map_fst]
      by_cases hm : a.1 ∈ d.map Prod.fst
      · rw [if_pos hm, List.map_cons, List.toFinset_cons, Finset.union_insert,
          Finset.insert_eq_self.mpr (Finset.mem_union_left _ (List.mem_toFinset.mpr hm))]
      · rw [if_neg hm, List.toFinset_append, List.map_cons, List.toFinset_cons,
          List.toFinset_cons, List.toFinset_nil, insert_emptyc_eq,
          Finset.union_assoc, ← Finset.insert_eq]

/-- The size of the comprehension dict is the number of distinct keys of
the raw pair list. -/
theorem pyDictOfPairs_length (pairs : List (String × PyVal)) :
    (pyDictOfPairs pairs).length = (pairs.map Prod.fst).toFinset.card := by
  have h1 := pyDictOfPairs_go_nodup pairs [] (by simp)
  have h2 := pyDictOfPairs_go_toFinset pairs []
  calc (pyDictOfPairs pairs).length
      = ((pyDictOfPairs pairs).map Prod.fst).length := (List.length_map _ _).symm
    _ = ((pyDictOfPairs pairs).map Prod.fst).toFinset.card :=
        (List.toFinset_card_of_nodup h1).symm
    _ = (pairs.map Prod.fst).toFinset.card := by rw [pyDictOfPairs]; rw [h2]; simp

/-- When the raw pairs have pairwise-distinct keys the comprehension
keeps them unchanged. -/
theorem pyDictOfPairs_go_of_nodup (pairs : List (String × PyVal)) :
    ∀ d : List (String × PyVal), ((d ++ pairs).map Prod.fst).Nodup →
      pairs.foldl (fun d kv => pyDictInsert d kv.1 kv.2) d = d ++ pairs := by
  induction pairs with
  | nil => intro d h; simp
  | cons a t ih =>
      intro d h
      rw [List.foldl_cons]
      have hmem : a.1 ∉ d.map Prod.fst := by
        intro hc
        rw [List.map_append] at h
        rcases List.nodup_append.mp h with ⟨h1, h2, hdisj⟩
        exact hdisj hc (by simp)
      rw [pyDictInsert_of_not_mem a.2 hmem]
      have hnext : (((d ++ [(a.1, a.2)]) ++ t).map Prod.fst).Nodup := by
        simpa [List.append_assoc] using h
      rw [ih _ hnext]
      simp [List.append_assoc]

/-- Zipping a list with a function of its enumeration. -/
theorem zip_enumFrom_map {β : Type} (g : Nat × String → β) :
    ∀ (n : Nat) (l : List String),
      l.zip ((l.enumFrom n).map g) = (l.enumFrom n).map (fun p => (p.2, g p)) := by
  intro n l
  induction l generalizing n with
  | nil => rfl
  | cons a t ih => simp [List.enumFrom, List.zip_cons_cons, ih (n + 1)]

/-- C3: for a list of distinct model identifiers the Parallel Batch
Dispatcher returns one entry per input model, in input order, each bound
to that model's own result (never absent); the empty list gives the
empty mapping (and no task is created, the task list being the same
enumeration). -/
theorem spec_C3 (models : List String) (messages : PyVal) (stage : Option String)
    (defaultTimeout : Nat) (net : Nat → NetOutcome) (h : models.Nodup) :
    query_models_parallel models messages stage defaultTimeout net
      = models.enum.map (fun p =>
          (p.2, query_model p.2 messages Option.none stage defaultTimeout (net p.1)))
    ∧ (query_models_parallel models messages stage defaultTimeout net).length = models.length
    ∧ (∀ m ∈ models, ∃ res,
        pyLookup (query_models_parallel models messages stage defaultTimeout net) m = some res)
    ∧ query_models_parallel [] messages stage defaultTimeout net = [] := by
  have hzip : models.zip (parallel_responses models messages stage defaultTimeout net)
      = models.enum.map (fun p =>
          (p.2, query_model p.2 messages Option.none stage defaultTimeout (net p.1))) := by
    show models.zip ((models.enumFrom 0).map
        (fun p => query_model p.2 messages Option.none stage defaultTimeout (net p.1)))
      = (models.enumFrom 0).map (fun p =>
          (p.2, query_model p.2 messages Option.none stage defaultTimeout (net p.1)))
    exact zip_enumFrom_map _ 0 models
  have hkeys : (models.enum.map (fun p =>
      (p.2, query_model p.2 messages Option.none stage defaultTimeout (net p.1)))).map Prod.fst
      = models := by
    rw [List.map_map]
    have hcomp : (Prod.fst ∘ fun p : Nat × String =>
        (p.2, query_model p.2 messages Option.none stage defaultTimeout (net p.1)))
        = Prod.snd := rfl
    rw [hcomp, List.enum_map_snd]
  have hmain : query_models_parallel models messages stage defaultTimeout net
      = models.enum.map (fun p =>
          (p.2, query_model p.2 messages Option.none stage defaultTimeout (net p.1))) := by
    unfold query_models_parallel pyDictOfPairs
    rw [hzip]
    have hnd : ((([] : List (String × PyVal)) ++ models.enum.map (fun p =>
        (p.2, query_model p.2 messages Option.none stage defaultTimeout (net p.1)))).map
          Prod.fst).Nodup := by
      rw [List.nil_append, hkeys]
      exact h
    have h2 := pyDictOfPairs_go_of_nodup _ _ hnd
    rw [List.nil_append] at h2
    exact h2
  refine ⟨hmain, ?_, ?_, rfl⟩
  · rw [hmain, List.length_map, List.enum_length]
  · intro m hm
    rw [hmain]
    have hm2 : m ∈ (models.enum.map (fun p =>
        (p.2, query_model p.2 messages Option.none stage defaultTimeout (net p.1)))).map
          Prod.fst := by
      rw [hkeys]
      exact hm
    rcases List.mem_map.mp hm2 with ⟨x, hx, he⟩
    have hsome : ((models.enum.map (fun p =>
        (p.2, query_model p.2 messages Option.none stage defaultTimeout (net p.1)))).find?
          (fun kv => kv.1 == m)).isSome :=
      List.find?_isSome.mpr ⟨x, hx, beq_iff_eq.mpr he⟩
    obtain ⟨y, hy⟩ := Option.isSome_iff_exists.mp hsome
    exact ⟨y.2, by unfold pyLookup; rw [hy]; rfl⟩

/-- Witness for C3 on two distinct models. -/
theorem spec_C3_witness :
    query_models_parallel ["a", "b"] (PyVal.str "hi") Option.none 120 netConst
      = (["a", "b"].enum.map (fun p =>
          (p.2, query_model p.2 (PyVal.str "hi") Option.none Option.none 120 (netConst p.1))))
    ∧ (query_models_parallel ["a", "b"] (PyVal.str "hi") Option.none 120 netConst).length
        = (["a", "b"] : List String).length
    ∧ query_models_parallel [] (PyVal.str "hi") Option.none 120 netConst = [] :=
  ⟨(spec_C3 ["a", "b"] (PyVal.str "hi") Option.none 120 netConst (by decide)).1,
   (spec_C3 ["a", "b"] (PyVal.str "hi") Option.none 120 netConst (by decide)).2.1,
   (spec_C3 ["a", "b"] (PyVal.str "hi") Option.none 120 netConst (by decide)).2.2.2⟩

/-- The tasks list has one task per input model. -/
theorem streaming_tasks_length (models : List String) (messages : PyVal)
    (dt : Nat) (net : Nat → NetOutcome) :
    (streaming_tasks models messages dt net).length = models.length := by
  unfold streaming_tasks
  rw [List.length_map, List.enum_length]

/-- `as_completed` hands back every task exactly once. -/
theorem asCompletedOrder_perm (n : Nat) (finish : Nat → Nat) :
    (asCompletedOrder n finish).Perm (List.range n) := by
  unfold asCompletedOrder
  exact List.mergeSort_perm _ _

/-- Indices handed back by `as_completed` are task indices. -/
theorem asCompletedOrder_mem {n : Nat} {finish : Nat → Nat} {i : Nat}
    (h : i ∈ asCompletedOrder n finish) : i < n :=
  List.mem_range.mp ((asCompletedOrder_perm n finish).mem_iff.mp h)

/-- `as_completed` hands tasks back ordered by completion time. -/
theorem asCompletedOrder_sorted (n : Nat) (finish : Nat → Nat) :
    List.Pairwise (fun i j => finish i ≤ finish j) (asCompletedOrder n finish) := by
  unfold asCompletedOrder
  have h := @List.sorted_mergeSort Nat (fun i j => decide (finish i ≤ finish j))
    (fun a b c hab hbc => by
      simp only [decide_eq_true_eq] at hab hbc ⊢
      exact le_trans hab hbc)
    (fun a b => by
      rcases Nat.le_total (finish a) (finish b) with hle | hle
      · simp [hle]
      · simp [hle])
    (List.range n)
  exact h.imp (fun hab => of_decide_eq_true hab)

/-- Mapping `getD` over the index range reconstructs the list. -/
theorem range_map_getD {α : Type} (l : List α) (d : α) :
    (List.range l.length).map (fun i => l.getD i d) = l := by
  apply List.ext_getElem
  · rw [List.length_map, List.length_range]
  · intro n h1 h2
    rw [List.getElem_map, List.getElem_range]
    exact List.getD_eq_getElem l d h2

/-- The i-th streaming task is the i-th model paired with its own
result. -/
theorem streaming_tasks_getD (models : List String) (messages : PyVal) (dt : Nat)
    (net : Nat → NetOutcome) {i : Nat} (hi : i < models.length) :
    (streaming_tasks models messages dt net).getD i ("", PyVal.none)
      = (models.getD i "",
          query_model (models.getD i "") messages Option.none Option.none dt (net i)) := by
  have hlen : i < (streaming_tasks models messages dt net).length := by
    rw [streaming_tasks_length]
    exact hi
  rw [List.getD_eq_getElem _ _ hlen]
  unfold streaming_tasks
  rw [List.getElem_map, List.getElem_enum, List.getD_eq_getElem models "" hi]

/-- The streaming dispatcher yields exactly one item per input model. -/
theorem query_models_streaming_length (models : List String) (messages : PyVal)
    (dt : Nat) (net : Nat → NetOutcome) (finish : Nat → Nat) :
    (query_models_streaming models messages dt net finish).length = models.length := by
  unfold query_models_streaming
  rw [List.length_map, (asCompletedOrder_perm models.length finish).length_eq,
    List.length_range]

/-- The streamed items are a permutation of the tasks' (model, result)
pairs: every model exactly once, with its own result. -/
theorem query_models_streaming_perm_tasks (models : List String) (messages : PyVal)
    (dt : Nat) (net : Nat → NetOutcome) (finish : Nat → Nat) :
    (query_models_streaming models messages dt net finish).Perm
      (streaming_tasks models messages dt net) := by
  unfold query_models_streaming
  have hperm := (asCompletedOrder_perm models.length finish).map
    (fun i => (streaming_tasks models messages dt net).getD i ("", PyVal.none))
  refine hperm.trans ?_
  have hrange : (List.range models.length).map
      (fun i => (streaming_tasks models messages dt net).getD i ("", PyVal.none))
      = streaming_tasks models messages dt net := by
    rw [← streaming_tasks_length models messages dt net]
    exact range_map_getD _ _
  rw [hrange]

/-- The streamed models are a permutation of the input models. -/
theorem query_models_streaming_fst_perm (models : List String) (messages : PyVal)
    (dt : Nat) (net : Nat → NetOutcome) (finish : Nat → Nat) :
    ((query_models_streaming models messages dt net finish).map Prod.fst).Perm models := by
  unfold query_models_streaming
  rw [List.map_map]
  have hperm := (asCompletedOrder_perm models.length finish).map
    (Prod.fst ∘ fun i => (streaming_tasks models messages dt net).getD i ("", PyVal.none))
  refine hperm.trans ?_
  have hrange : (List.range models.length).map
      (Prod.fst ∘ fun i => (streaming_tasks models messages dt net).getD i ("", PyVal.none))
      = models := by
    have h2 : ∀ i ∈ List.range models.length,
        (Prod.fst ∘ fun i => (streaming_tasks models messages dt net).getD i ("", PyVal.none)) i
          = models.getD i "" := by
      intro i hi
      have hi' := List.mem_range.mp hi
      show ((streaming_tasks models messages dt net).getD i ("", PyVal.none)).1
        = models.getD i ""
      rw [streaming_tasks_getD models messages dt net hi']
    rw [List.map_congr_left h2, range_map_getD]
  rw [hrange]

/-- Streams are emitted in completion order: items of earlier-finishing
models come first. -/
theorem query_models_streaming_pairwise (models : List String) (messages : PyVal)
    (dt : Nat) (net : Nat → NetOutcome) (finish : Nat → Nat) (h : models.Nodup) :
    List.Pairwise (fun a b =>
        finish (List.indexOf a.1 models) ≤ finish (List.indexOf b.1 models))
      (query_models_streaming models messages dt net finish) := by
  unfold query_models_streaming
  rw [List.pairwise_map]
  refine (asCompletedOrder_sorted models.length finish).imp_of_mem ?_
  intro i j hi hj hle
  have hi' := asCompletedOrder_mem hi
  have hj' := asCompletedOrder_mem hj
  rw [streaming_tasks_getD models messages dt net hi',
    streaming_tasks_getD models messages dt net hj']
  rw [List.getD_eq_getElem models "" hi', List.getD_eq_getElem models "" hj']
  rw [List.indexOf_getElem h i hi', List.indexOf_getElem h j hj']
  exact hle

/-- C4: for distinct models the Streaming Completion Dispatcher emits
exactly N items, each model exactly once with its own result (the items
are a permutation of the task pairs), and emission follows completion
order: the item of a request that finishes earlier is yielded before the
item of one that finishes later. -/
theorem spec_C4 (models : List String) (messages : PyVal) (dt : Nat)
    (net : Nat → NetOutcome) (finish : Nat → Nat) (h : models.Nodup) :
    (query_models_streaming models messages dt net finish).length = models.length
    ∧ (query_models_streaming models messages dt net finish).Perm
        (streaming_tasks models messages dt net)
    ∧ ((query_models_streaming models messages dt net finish).map Prod.fst).Perm models
    ∧ List.Pairwise (fun a b =>
        finish (List.indexOf a.1 models) ≤ finish (List.indexOf b.1 models))
      (query_models_streaming models messages dt net finish) :=
  ⟨query_models_streaming_length models messages dt net finish,
   query_models_streaming_perm_tasks models messages dt net finish,
   query_models_streaming_fst_perm models messages dt net finish,
   query_models_streaming_pairwise models messages dt net finish h⟩

/-- Witness for C4 on two distinct models. -/
theorem spec_C4_witness :
    (query_models_streaming ["a", "b"] (PyVal.str "hi") 120 netConst finishId).length
        = (["a", "b"] : List String).length
    ∧ (query_models_streaming ["a", "b"] (PyVal.str "hi") 120 netConst finishId).Perm
        (streaming_tasks ["a", "b"] (PyVal.str "hi") 120 netConst)
    ∧ ((query_models_streaming ["a", "b"] (PyVal.str "hi") 120 netConst finishId).map
        Prod.fst).Perm ["a", "b"]
    ∧ List.Pairwise (fun a b =>
        finishId (List.indexOf a.1 ["a", "b"]) ≤ finishId (List.indexOf b.1 ["a", "b"]))
      (query_models_streaming ["a", "b"] (PyVal.str "hi") 120 netConst finishId) :=
  spec_C4 ["a", "b"] (PyVal.str "hi") 120 netConst finishId (by decide)

/-- C10: with duplicate identifiers in the input list, the Parallel
Batch Dispatcher still issues one request per list element, but its
mapping has one entry per distinct identifier — strictly fewer than the
input length — and a later element's result overwrites an earlier one's
(lookup gives the value of the LAST occurrence); the Streaming
Completion Dispatcher still emits one item per list element, duplicates
included. -/
theorem spec_C10 (models : List String) (messages : PyVal) (stage : Option String)
    (dt : Nat) (net : Nat → NetOutcome) (finish : Nat → Nat) (h : ¬ models.Nodup) :
    (parallel_responses models messages stage dt net).length = models.length
    ∧ (query_models_parallel models messages stage dt net).length = models.toFinset.card
    ∧ (query_models_parallel models messages stage dt net).length < models.length
    ∧ (∀ m, pyLookup (query_models_parallel models messages stage dt net) m
        = lastAssoc (models.zip (parallel_responses models messages stage dt net)) m)
    ∧ (query_models_streaming models messages dt net finish).length = models.length
    ∧ ((query_models_streaming models messages dt net finish).map Prod.fst).Perm models := by
  have hlenresp : (parallel_responses models messages stage dt net).length = models.length := by
    unfold parallel_responses
    rw [List.length_map, List.enum_length]
  have hkeys : (models.zip (parallel_responses models messages stage dt net)).map Prod.fst
      = models :=
    List.map_fst_zip _ _ (by rw [hlenresp])
  have hcard : (query_models_parallel models messages stage dt net).length
      = models.toFinset.card := by
    unfold query_models_parallel
    rw [pyDictOfPairs_length, hkeys]
  refine ⟨hlenresp, hcard, ?_, ?_,
    query_models_streaming_length models messages dt net finish,
    query_models_streaming_fst_perm models messages dt net finish⟩
  · rw [hcard, List.card_toFinset]
    have hsub := List.dedup_sublist models
    refine Nat.lt_of_le_of_ne hsub.length_le ?_
    intro heq
    exact h (List.dedup_eq_self.mp (hsub.eq_of_length heq))
  · intro m
    unfold query_models_parallel
    exact pyLookup_pyDictOfPairs _ m

/-- Witness for C10 on a duplicated model list. -/
theorem spec_C10_witness :
    (parallel_responses ["a", "a"] (PyVal.str "hi") Option.none 120 netConst).length
        = (["a", "a"] : List String).length
    ∧ (query_models_parallel ["a", "a"] (PyVal.str "hi") Option.none 120 netConst).length
        = (["a", "a"] : List String).toFinset.card
    ∧ (query_models_parallel ["a", "a"] (PyVal.str "hi") Option.none 120 netConst).length
        < (["a", "a"] : List String).length
    ∧ (query_models_streaming ["a", "a"] (PyVal.str "hi") 120 netConst finishId).length
        = (["a", "a"] : List String).length
    ∧ ((query_models_streaming ["a", "a"] (PyVal.str "hi") 120 netConst finishId).map
        Prod.fst).Perm ["a", "a"] :=
  ⟨(spec_C10 ["a", "a"] (PyVal.str "hi") Option.none 120 netConst finishId (by decide)).1,
   (spec_C10 ["a", "a"] (PyVal.str "hi") Option.none 120 netConst finishId (by decide)).2.1,
   (spec_C10 ["a", "a"] (PyVal.str "hi") Option.none 120 netConst finishId (by decide)).2.2.1,
   (spec_C10 ["a", "a"] (PyVal.str "hi") Option.none 120 netConst finishId (by decide)).2.2.2.2.1,
   (spec_C10 ["a", "a"] (PyVal.str "hi") Option.none 120 netConst finishId (by decide)).2.2.2.2.2⟩

/-- C5 counterexample: the claim as stated says all requests are
dispatched at call time, before the consumer pulls any item; but the
generator body runs nothing before the first pull, so after zero pulls
the number of dispatched requests is 0, not the number of models. -/
theorem spec_C5_cex :
    ¬ countCreates (streamingEvents ["a"] (PyVal.str "hi") 120 netConst finishId 0)
        = (["a"] : List String).length := by
  decide

/-- C5 (amended): all N requests are dispatched when the consumer first
pulls — before any item is yielded — and dispatching is never
interleaved with yielding (in every trace with at least one pull, all
task-creation events precede all yield events); at call time, before the
first pull, nothing has been dispatched. -/
theorem spec_C5 (models : List String) (messages : PyVal) (dt : Nat)
    (net : Nat → NetOutcome) (finish : Nat → Nat) (pulls : Nat) (h : 1 ≤ pulls) :
    countCreates (streamingEvents models messages dt net finish pulls) = models.length
    ∧ streamingEvents models messages dt net finish pulls
        = (streamingEvents models messages dt net finish pulls).filter
            (fun e => e.isCreate)
          ++ (streamingEvents models messages dt net finish pulls).filter
            (fun e => ! e.isCreate)
    ∧ streamingEvents models messages dt net finish 0 = [] := by
  have hne : pulls ≠ 0 := Nat.one_le_iff_ne_zero.mp h
  have hev : streamingEvents models messages dt net finish pulls
      = (models.enum.map (fun p => StreamEvent.createTask p.1 p.2)) ++
        ((asCompletedOrder models.length finish).take (min pulls models.length)).map
          (fun i =>
            let item := (streaming_tasks models messages dt net).getD i ("", PyVal.none)
            StreamEvent.yieldItem item.1 item.2) := by
    unfold streamingEvents
    rw [if_neg hne]
  have hcreates : ∀ e ∈ models.enum.map (fun p => StreamEvent.createTask p.1 p.2),
      e.isCreate = true := by
    intro e he
    rcases List.mem_map.mp he with ⟨p, hp, rfl⟩
    rfl
  have hyields : ∀ e ∈ ((asCompletedOrder models.length finish).take
      (min pulls models.length)).map (fun i =>
        let item := (streaming_tasks models messages dt net).getD i ("", PyVal.none)
        StreamEvent.yieldItem item.1 item.2),
      e.isCreate = false := by
    intro e he
    rcases List.mem_map.mp he with ⟨i, hi2, rfl⟩
    rfl
  refine ⟨?_, ?_, ?_⟩
  · unfold countCreates
    rw [hev, List.filter_append, List.filter_eq_self.mpr hcreates,
      List.filter_eq_nil_iff.mpr (fun a ha => by rw [hyields a ha]; exact Bool.false_ne_true),
      List.append_nil, List.length_map, List.enum_length]
  · rw [hev, List.filter_append, List.filter_append,
      List.filter_eq_self.mpr hcreates,
      List.filter_eq_nil_iff.mpr (fun a ha => by rw [hyields a ha]; exact Bool.false_ne_true),
      List.filter_eq_nil_iff.mpr (fun a ha => by rw [hcreates a ha]; decide),
      List.filter_eq_self.mpr (fun a ha => by rw [hyields a ha]; rfl),
      List.append_nil, List.nil_append]
  · unfold streamingEvents
    rw [if_pos rfl]

/-- Witness for C5 (amended) at one pull on one model. -/
theorem spec_C5_witness :
    countCreates (streamingEvents ["a"] (PyVal.str "hi") 120 netConst finishId 1)
        = (["a"] : List String).length
    ∧ streamingEvents ["a"] (PyVal.str "hi") 120 netConst finishId 1
        = (streamingEvents ["a"] (PyVal.str "hi") 120 netConst finishId 1).filter
            (fun e => e.isCreate)
          ++ (streamingEvents ["a"] (PyVal.str "hi") 120 netConst finishId 1).filter
            (fun e => ! e.isCreate)
    ∧ streamingEvents ["a"] (PyVal.str "hi") 120 netConst finishId 0 = [] :=
  spec_C5 ["a"] (PyVal.str "hi") 120 netConst finishId 1 (by decide)
